import Mathlib

/-!
Verification of the safe file ingestion pipeline of the `bad-server`
repository (an Express/multer upload stack with several historical
revisions of the same middleware and controller modules).

The embedding translates the TypeScript sources:
  * `backend/src/middlewares/file.ts` (both revisions in the file):
    `sanitizeFilename`, the disk-storage `filename` callback, the
    declared-metadata `fileFilter`, and `generateSafeFileName`;
  * `backend/src/controllers/upload.ts` (all revisions): the upload
    controllers, including the `writeFileSync`-based store writer and the
    `normalize(...).startsWith(...)` path guard;
  * the unnamed revision files: `fileFilter` variants that sniff content
    with `fileTypeFromBuffer`, `isSafePath`, and the UUID-based
    `generateSafeFileName` with the `.bin` fallback.

JavaScript strings are modelled as Lean `String` (operations implemented
over the character list, ASCII case mapping), byte buffers as `List Nat`,
the upload directory contents as an association list from path to bytes,
and the randomness consumed by `crypto.randomUUID` / `Date.now` /
`Math.random` as explicit string parameters.
-/

namespace BadServer

/-- Model of JavaScript `String.prototype.toLowerCase` restricted to ASCII:
each character is lowercased individually. -/
def jsToLower (s : String) : String :=
  String.mk (s.data.map Char.toLower)

/-- Model of JavaScript `String.prototype.startsWith`: the first string
begins with the second. -/
def strStartsWith (s pre : String) : Bool :=
  pre.data.isPrefixOf s.data

/-- Model of JavaScript `String.prototype.endsWith`: the first string ends
with the second. -/
def strEndsWith (s suf : String) : Bool :=
  suf.data.isSuffixOf s.data

/-- Split a character list at every occurrence of `sep` (model of
JavaScript `split` with a single-character separator; also used for the
`/`-splitting done by Node's path normalization). -/
def splitCharAux (sep : Char) : List Char → List Char → List (List Char)
  | [], cur => [cur.reverse]
  | c :: rest, cur =>
    if c = sep then cur.reverse :: splitCharAux sep rest []
    else splitCharAux sep rest (c :: cur)

def splitChar (sep : Char) (l : List Char) : List (List Char) :=
  splitCharAux sep l []

/-- Does `pat` occur as a contiguous segment of `s`? (used to state the
"contains no substring of the original filename" property). -/
def listContainsSeg (s pat : List Char) : Bool :=
  s.tails.any (fun t => pat.isPrefixOf t)

/-- Node `path.extname` (POSIX), character-list level: the extension of the
basename from its last dot, except that a missing dot, a dot in first
position (dotfiles), or a basename of exactly `..` give the empty string.
Trailing slashes are ignored, as in Node. -/
def extnameL (p : List Char) : String :=
  let nameRev := (p.reverse.dropWhile (fun c => c = '/')).takeWhile (fun c => c ≠ '/')
  if nameRev = ['.', '.'] then ""
  else
    let afterDot := nameRev.takeWhile (fun c => c ≠ '.')
    if afterDot.length = nameRev.length then ""
    else if afterDot.length + 1 = nameRev.length then ""
    else String.mk ('.' :: afterDot.reverse)

/-- Node `path.extname` on strings. -/
def extname (p : String) : String :=
  extnameL p.data

/-- Segment processing of Node `path.posix.normalize` (`normalizeString`):
empty and `.` segments vanish, `..` pops the previous segment; above-root
`..` segments are kept for relative paths and dropped for absolute ones. -/
def normSegsL (allowAbove : Bool) : List (List Char) → List (List Char) → List (List Char)
  | acc, [] => acc
  | acc, seg :: rest =>
    if seg = [] ∨ seg = ['.'] then normSegsL allowAbove acc rest
    else if seg = ['.', '.'] then
      match acc.getLast? with
      | some l =>
        if l = ['.', '.'] then normSegsL allowAbove (acc ++ [seg]) rest
        else normSegsL allowAbove acc.dropLast rest
      | none =>
        if allowAbove then normSegsL allowAbove [seg] rest
        else normSegsL allowAbove acc rest
    else normSegsL allowAbove (acc ++ [seg]) rest

/-- Node `path.posix.normalize`: resolves `.` and `..` segments, collapses
repeated separators, preserves a trailing separator, returns `.` for an
empty relative result and `/` for an empty absolute one. -/
def pathNormalize (p : String) : String :=
  if p = "" then "." else
  let l := p.data
  let isAbs := l.head? = some '/'
  let trailing := l.getLast? = some '/'
  let segs := normSegsL (!isAbs) [] (splitChar '/' l)
  match segs with
  | [] =>
    if isAbs then "/" else if trailing then "./" else "."
  | _ =>
    let body := List.intercalate ['/'] segs
    let body := if trailing then body ++ ['/'] else body
    String.mk (if isAbs then '/' :: body else body)

/-- Node `path.posix.join` for two non-empty arguments:
`join(a, b) = normalize(a + "/" + b)`. -/
def pathJoin (a b : String) : String :=
  pathNormalize (a ++ "/" ++ b)

/-- A multipart file as seen by the middleware: the client-declared name,
MIME type and size, and the payload bytes. -/
structure MulterFile where
  originalname : String
  mimetype : String
  size : Nat
  buffer : List Nat
deriving DecidableEq

/-- The result of content sniffing: resolved MIME type and canonical
extension. -/
structure FileTypeResult where
  mime : String
  ext : String
deriving DecidableEq

/-- Modelled from the spec: the repository delegates content sniffing to the
external `file-type` package's `fileTypeFromBuffer`, whose implementation is
not part of the repository sources. Following spec §4.2, the leading bytes
are matched against the magic-number signatures of the allow-listed binary
formats: the 8-byte PNG signature, `0xFFD8FF` for JPEG, and `GIF8` for GIF;
any buffer matching none of them is unresolvable (`none`). -/
def fileTypeFromBuffer (b : List Nat) : Option FileTypeResult :=
  if [0x89, 0x50, 0x4E, 0x47, 0x0D, 0x0A, 0x1A, 0x0A].isPrefixOf b then
    some ⟨"image/png", "png"⟩
  else if [0xFF, 0xD8, 0xFF].isPrefixOf b then
    some ⟨"image/jpeg", "jpg"⟩
  else if [0x47, 0x49, 0x46, 0x38].isPrefixOf b then
    some ⟨"image/gif", "gif"⟩
  else none

/-! ### Allow-list configuration (AllowedTypeRule) -/

/-- `ACCEPTED_MIME_TYPES` of the first revision of
`backend/src/middlewares/file.ts`: images, PDF and plain text. -/
def ACCEPTED_MIME_TYPES_v1 : List String :=
  ["image/png", "image/jpg", "image/jpeg", "image/gif", "image/svg+xml",
   "application/pdf", "text/plain"]

/-- `allowedExtensions` of the first-revision `fileFilter` (no leading
dots). -/
def allowedExtensions_v1 : List String :=
  ["png", "jpg", "jpeg", "gif", "svg", "pdf", "txt"]

/-- The five-entry image allow-list (`ALLOWED_MIME_TYPES` /
`ACCEPTED_MIME_TYPES` / `allowedMimeTypes` of the later revisions). -/
def allowedMimeTypes5 : List String :=
  ["image/png", "image/jpg", "image/jpeg", "image/gif", "image/svg+xml"]

/-- `MIME_TO_EXT`: permitted filename extensions for each allow-listed MIME
type; unknown keys give the empty list (JavaScript `undefined` lookup
followed by the `!validExtensions` rejection). -/
def MIME_TO_EXT (m : String) : List String :=
  if m = "image/png" then [".png"]
  else if m = "image/jpg" then [".jpg", ".jpeg"]
  else if m = "image/jpeg" then [".jpg", ".jpeg"]
  else if m = "image/gif" then [".gif"]
  else if m = "image/svg+xml" then [".svg"]
  else []

/-! ### Name generation -/

/-- The character class kept by `sanitizeFilename`'s first regex: characters
matching `[a-zA-Z0-9_\- .]`; everything else is replaced by `_`. -/
def isAllowedChar (c : Char) : Bool :=
  ('a' ≤ c ∧ c ≤ 'z') ∨ ('A' ≤ c ∧ c ≤ 'Z') ∨ ('0' ≤ c ∧ c ≤ '9') ∨
    c = '_' ∨ c = '-' ∨ c = ' ' ∨ c = '.'

/-- Second step of `sanitizeFilename`: `replace(/\.+\./, '')` removes the
leftmost run of two or more consecutive dots (first match only, no global
flag). -/
def removeDotRunL : List Char → List Char
  | [] => []
  | c :: rest =>
    if c = '.' ∧ rest.head? = some '.' then rest.dropWhile (fun d => d = '.')
    else c :: removeDotRunL rest

/-- `sanitizeFilename` of the first revision of
`backend/src/middlewares/file.ts`: replaces disallowed characters by `_`,
removes the first multi-dot run, and prepends an 8-hex-character hash of
`Date.now() + Math.random()` (the hash is a parameter of the model, since it
is randomness, not a function of the filename). -/
def sanitizeFilename (hash : String) (filename : String) : String :=
  hash ++ "_" ++ String.mk (removeDotRunL (filename.data.map
    (fun c => if isAllowedChar c then c else '_')))

/-- The first-revision disk-storage `filename` callback: the sanitized name
followed by a dot and the original name's last `split('.')` component. -/
def storedName_v1 (hash orig : String) : String :=
  sanitizeFilename hash orig ++ "." ++
    String.mk ((splitChar '.' orig.data).getLastD [])

/-- `generateSafeFileName` of `src/unnamed/part_004` (first revision) and
`part_006`: a fresh `crypto.randomUUID()` (model parameter `uuid`) followed
by the lowercased `extname` of the original name. -/
def generateSafeFileName (uuid : String) (f : MulterFile) : String :=
  uuid ++ jsToLower (extname f.originalname)

/-- `generateSafeFileName` of the second revision of
`backend/src/middlewares/file.ts` and of `src/unnamed/part_007`: as above
but with a `.bin` fallback when the lowercased extension is empty or a
single character. -/
def generateSafeFileNameBin (uuid : String) (f : MulterFile) : String :=
  let ext := jsToLower (extname f.originalname)
  let safeExt := if ext ≠ "" ∧ 1 < ext.length then ext else ".bin"
  uuid ++ safeExt

/-- `generateSafeFileName` of `src/unnamed/part_005`:
`${Date.now()}-${crypto.randomBytes(8).toString('hex')}` followed by the
lowercased extension (timestamp and hex token are model parameters). -/
def generateSafeFileName_p5 (ts rand : String) (f : MulterFile) : String :=
  ts ++ "-" ++ rand ++ jsToLower (extname f.originalname)

/-! ### Path guard -/

/-- `isSafePath` of `src/unnamed/part_004` (third revision), `part_005` and
`part_006`: the normalized target must start with the base directory
string. -/
def isSafePath (baseDir targetPath : String) : Bool :=
  strStartsWith (pathNormalize targetPath) baseDir

/-- Follows the spec's words, for comparison with `isSafePath`: a target is
strictly inside the root iff its canonical form extends the canonical root
by at least one path component (i.e. the canonical root followed by a
separator is a prefix of the canonical target). -/
def strictlyInsideRoot (root target : String) : Bool :=
  strStartsWith (pathNormalize target) (pathNormalize root ++ "/")

/-! ### File filters -/

/-- `fileFilter` of the first revision of `backend/src/middlewares/file.ts`
(lines 110-146): declared MIME type must be in the seven-entry allow-list,
declared size at most 5 MiB, and the lowercased last `split('.')` component
of the original name must be a listed extension. No content is read. -/
def fileFilter_meta (f : MulterFile) : Bool :=
  if ¬ (ACCEPTED_MIME_TYPES_v1.contains f.mimetype) then false
  else if 5 * 1024 * 1024 < f.size then false
  else
    let ext := String.mk ((splitChar '.' (jsToLower f.originalname).data).getLastD [])
    if ext = "" ∨ ¬ (allowedExtensions_v1.contains ext) then false
    else true

/-- `fileFilter` of `src/unnamed/part_004`, second revision (lines 142-182):
declared size within [2 KiB, 10 MiB], non-empty lowercased extension,
lowercased declared MIME in the allow-list, and the extension permitted for
that MIME type. Purely metadata-driven. -/
def fileFilter_part004v2 (f : MulterFile) : Bool :=
  if f.size < 2048 then false
  else if 10 * 1024 * 1024 < f.size then false
  else
    let ext := jsToLower (extname f.originalname)
    if ext = "" then false
    else
      let mime := jsToLower f.mimetype
      if ¬ (allowedMimeTypes5.contains mime) then false
      else if ¬ ((MIME_TO_EXT mime).contains ext) then false
      else true

/-- Follows the spec's words (§4.1), for comparison with
`fileFilter_part004v2`: declared MIME type in the allow-list, extension
present and mapped to the declared MIME type (case-insensitive), and
declared size between the 2048-byte minimum and the 10 MiB maximum. -/
def declaredMetadataOk (f : MulterFile) : Prop :=
  jsToLower f.mimetype ∈ allowedMimeTypes5 ∧
  extname f.originalname ≠ "" ∧
  jsToLower (extname f.originalname) ∈ MIME_TO_EXT (jsToLower f.mimetype) ∧
  2048 ≤ f.size ∧ f.size ≤ 10 * 1024 * 1024

instance (f : MulterFile) : Decidable (declaredMetadataOk f) := by
  unfold declaredMetadataOk; infer_instance

/-- `fileFilter` of `src/unnamed/part_005` (lines 65-100): sniffs the buffer
with `fileTypeFromBuffer`; the sniffed MIME must be allow-listed, the
lowercased declared extension must be permitted for the sniffed type, and
the generated storage path must pass `isSafePath`. The declared MIME type is
never consulted. -/
def fileFilter_part005 (uploadDir ts rand : String) (f : MulterFile) : Bool :=
  match fileTypeFromBuffer f.buffer with
  | none => false
  | some t =>
    if ¬ (allowedMimeTypes5.contains t.mime) then false
    else
      let ext := jsToLower (extname f.originalname)
      if ¬ ((MIME_TO_EXT t.mime).contains ext) then false
      else
        let fullPath := pathJoin uploadDir (generateSafeFileName_p5 ts rand f)
        if ¬ (isSafePath uploadDir fullPath) then false
        else true

/-- `fileFilter` of `src/unnamed/part_006` (lines 89-149): size bounds,
non-empty extension, lowercased declared MIME allow-listed and consistent
with the extension, then the deep content check — `fileTypeFromBuffer` must
resolve to an allow-listed MIME — and finally the `isSafePath` check on the
generated path. -/
def fileFilter_part006 (uploadDir uuid : String) (f : MulterFile) : Bool :=
  if f.size < 2048 then false
  else if 10 * 1024 * 1024 < f.size then false
  else
    let ext := jsToLower (extname f.originalname)
    if ext = "" then false
    else
      let mime := jsToLower f.mimetype
      if ¬ (allowedMimeTypes5.contains mime) then false
      else if ¬ ((MIME_TO_EXT mime).contains ext) then false
      else
        match fileTypeFromBuffer f.buffer with
        | none => false
        | some t =>
          if ¬ (allowedMimeTypes5.contains t.mime) then false
          else
            let fullPath := pathJoin uploadDir (generateSafeFileName uuid f)
            if ¬ (isSafePath uploadDir fullPath) then false
            else true

/-! ### Disk model and store writers -/

/-- The upload directory contents: most recent write first; lookup returns
the most recent content for a path. -/
abbrev Disk := List (String × List Nat)

def diskLookup : Disk → String → Option (List Nat)
  | [], _ => none
  | (q, c) :: rest, p => if q = p then some c else diskLookup rest p

/-- `fs.writeFileSync(path, bytes)`: creates the file, or truncates and
replaces its content when the path already exists (Node default `w`
flag). -/
def writeFileSync (d : Disk) (p : String) (content : List Nat) : Disk :=
  (p, content) :: d

/-- Upload response of `src/unnamed/part_001` (`UploadResponse`). -/
structure UploadResponseM where
  fileName : String
  originalName : String
  path : String
  size : Nat
  mimetype : String
deriving DecidableEq

/-- Outcome of the `part_001` controller: a 201 payload or an HTTP error
status with message. -/
inductive UploadOutcome where
  | ok (r : UploadResponseM)
  | err (status : Nat) (msg : String)
deriving DecidableEq

/-- `uploadFile` of `src/unnamed/part_001` (lines 16-92): sniffs the buffer,
checks the sniffed MIME against the allow-list, builds
`${crypto.randomUUID()}${extname(originalname)}` (model parameter `uuid`),
guards the joined path with `normalize(fullPath).startsWith(normalize(uploadDir))`,
and stores the buffer with `fs.writeFileSync`. `uploadDir` is the resolved
`../../public/uploads` directory, a model parameter. -/
def uploadFile_part001 (uploadDir uuid : String) (d : Disk)
    (file : Option MulterFile) : Disk × UploadOutcome :=
  match file with
  | none => (d, .err 400 "Файл не загружен")
  | some f =>
    match fileTypeFromBuffer f.buffer with
    | none => (d, .err 400 "Не удалось определить тип файла")
    | some t =>
      if ¬ (allowedMimeTypes5.contains t.mime) then
        (d, .err 400 "Недопустимый тип")
      else
        let uniqueFileName := uuid ++ extname f.originalname
        let fullPath := pathJoin uploadDir uniqueFileName
        if ¬ (strStartsWith (pathNormalize fullPath) (pathNormalize uploadDir)) then
          (d, .err 403 "Запрещённый путь")
        else
          let d2 := writeFileSync d fullPath f.buffer
          (d2, .ok ⟨uniqueFileName, f.originalname, "/uploads/" ++ uniqueFileName,
                    f.size, f.mimetype⟩)

/-! ### First-revision multer + controller pipeline -/

/-- A request file after multer disk storage: the original file plus the
multer-assigned stored filename. -/
structure StoredReq where
  file : MulterFile
  filename : String
deriving DecidableEq

/-- Response body of the first-revision `backend/src/controllers/upload.ts`. -/
structure UploadRespV1 where
  fileName : String
  originalName : String
deriving DecidableEq

inductive CtrlOutcome where
  | created (r : UploadRespV1)
  | error (msg : String)
deriving DecidableEq

/-- The multer stage configured by the first revision of
`backend/src/middlewares/file.ts`: when `fileFilter` accepts, disk storage
writes the payload under `storedName_v1` inside the upload directory and
hands the stored file to the controller; when it rejects, nothing is
written and no file reaches the controller. -/
def multerStage_v1 (uploadDir hash : String) (d : Disk) (f : MulterFile) :
    Disk × Option StoredReq :=
  if fileFilter_meta f then
    let name := storedName_v1 hash f.originalname
    (writeFileSync d (pathJoin uploadDir name) f.buffer, some ⟨f, name⟩)
  else (d, none)

/-- `uploadFile` of the first revision of `backend/src/controllers/upload.ts`
(lines 9-39): runs after multer; rejects a missing file, a size below 2 KiB
or above 10 MiB, and otherwise answers 201 with the stored filename under
`process.env.UPLOAD_PATH` (model parameter `uploadPath`). It performs no
cleanup of the file multer already stored. -/
def controller_v1 (uploadPath : Option String) (r : Option StoredReq) : CtrlOutcome :=
  match r with
  | none => .error "Файл не загружен"
  | some s =>
    if s.file.size < 2048 then .error "Размер файла должен быть больше 2KB"
    else if 10 * 1024 * 1024 < s.file.size then
      .error "Размер файла не должен превышать 10MB"
    else
      let fileName :=
        match uploadPath with
        | some up => "/" ++ up ++ "/" ++ s.filename
        | none => "/" ++ s.filename
      .created ⟨fileName, s.file.originalname⟩

/-- The composed first-revision pipeline: multer storage followed by the
controller, threading the upload directory contents. -/
def pipeline_v1 (uploadDir hash : String) (uploadPath : Option String)
    (d : Disk) (f : MulterFile) : Disk × CtrlOutcome :=
  let step := multerStage_v1 uploadDir hash d f
  (step.1, controller_v1 uploadPath step.2)

/-! ### Helper lemmas -/

theorem strData_append (a b : String) : (a ++ b).data = a.data ++ b.data := rfl

theorem isPrefixOf_self_append (l t : List Char) : l.isPrefixOf (l ++ t) = true := by
  induction l with
  | nil => simp [List.isPrefixOf]
  | cons a as ih => simp [List.isPrefixOf, ih]

theorem isSuffixOf_append_self (t l : List Char) : t.isSuffixOf (l ++ t) = true := by
  simp only [List.isSuffixOf, List.reverse_append]
  exact isPrefixOf_self_append t.reverse l.reverse

theorem isPrefixOf_weaken (a b l : List Char)
    (h : (a ++ b).isPrefixOf l = true) : a.isPrefixOf l = true := by
  induction a generalizing l with
  | nil => simp [List.isPrefixOf]
  | cons x xs ih =>
    cases l with
    | nil => simp [List.isPrefixOf] at h
    | cons y ys =>
      simp only [List.cons_append, List.isPrefixOf, Bool.and_eq_true] at h ⊢
      exact ⟨h.1, ih ys h.2⟩

theorem jsToLower_length (s : String) : (jsToLower s).length = s.length := by
  show (s.data.map Char.toLower).length = s.data.length
  exact List.length_map s.data Char.toLower

theorem jsToLower_eq_empty_iff (s : String) : jsToLower s = "" ↔ s = "" := by
  constructor
  · intro h
    have h2 := congrArg String.data h
    simp only [jsToLower] at h2
    have h3 : List.map Char.toLower s.data = [] := h2
    exact String.ext (List.map_eq_nil_iff.mp h3)
  · intro h; rw [h]; rfl

theorem extname_empty_or_dot (p : String) :
    extname p = "" ∨ ∃ l, (extname p).data = '.' :: l := by
  simp only [extname, extnameL]
  split_ifs with h1 h2 h3
  · exact .inl rfl
  · exact .inl rfl
  · exact .inl rfl
  · exact .inr ⟨_, rfl⟩

theorem jsToLower_dot_head {e : String} {l : List Char} (h : e.data = '.' :: l) :
    strStartsWith (jsToLower e) "." = true := by
  simp [strStartsWith, jsToLower, h, List.isPrefixOf]

/-! ### Concrete byte fixtures -/

/-- A buffer beginning with the 8-byte PNG signature. -/
def pngBytes : List Nat := [0x89, 0x50, 0x4E, 0x47, 0x0D, 0x0A, 0x1A, 0x0A, 0, 0, 0, 13]

/-- A buffer beginning with the JPEG `0xFFD8FF` signature. -/
def jpgBytes : List Nat := [0xFF, 0xD8, 0xFF, 0xE0, 0, 16]

/-- A buffer beginning with the `GIF8` signature. -/
def gifBytes : List Nat := [0x47, 0x49, 0x46, 0x38, 0x39, 0x61]

/-- An ASCII text buffer (`hello world!`), matching no configured magic
number. -/
def txtBytes : List Nat := [104, 101, 108, 108, 111, 32, 119, 111, 114, 108, 100, 33]

theorem contains_iff_mem (L : List String) (m : String) :
    (L.contains m = true) ↔ m ∈ L := by
  simp [List.contains]

/-! ### Claim theorems -/

/-- Claim C5 (confirmed): the declared-metadata validator — the second
`fileFilter` of `src/unnamed/part_004` (lines 142-182) — accepts an upload
iff the declared MIME type is allow-listed, the filename's extension is
present and mapped to that MIME type in the allow-list table
(case-insensitive comparison throughout), and the declared size is at least
2048 bytes and at most 10 MiB; otherwise it rejects. -/
theorem c5_declared_validator_iff (f : MulterFile) :
    fileFilter_part004v2 f = true ↔ declaredMetadataOk f := by
  constructor
  · intro hf
    simp only [fileFilter_part004v2] at hf
    split_ifs at hf with h1 h2 h3 h4 h5
    refine ⟨(contains_iff_mem _ _).mp h4,
            fun he => h3 ((jsToLower_eq_empty_iff _).mpr he),
            (contains_iff_mem _ _).mp h5, by omega, by omega⟩
  · rintro ⟨hm, hne, hx, hlo, hhi⟩
    simp only [fileFilter_part004v2]
    rw [if_neg (by omega : ¬ f.size < 2048),
        if_neg (by omega : ¬ 10 * 1024 * 1024 < f.size)]
    rw [if_neg (fun he => hne ((jsToLower_eq_empty_iff _).mp he))]
    rw [if_neg (not_not_intro ((contains_iff_mem _ _).mpr hm))]
    rw [if_neg (not_not_intro ((contains_iff_mem _ _).mpr hx))]

/-- Claim C8 (confirmed): two invocations of the UUID-based
`generateSafeFileName` (second revision of `backend/src/middlewares/file.ts`)
on the same declared filename with distinct random tokens yield distinct
stored names; the stored name is not a deterministic function of the
filename. Independent randomness is modelled as the two tokens being
distinct. -/
theorem c8_distinct_tokens_distinct_names (u1 u2 : String) (f : MulterFile)
    (h : u1 ≠ u2) :
    generateSafeFileNameBin u1 f ≠ generateSafeFileNameBin u2 f := by
  intro he
  apply h
  simp only [generateSafeFileNameBin] at he
  have hd := congrArg String.data he
  rw [strData_append, strData_append] at hd
  exact String.ext (List.append_cancel_right hd)

/-- Witness for C8 at a concrete filename and two concrete tokens. -/
theorem c8_witness :
    generateSafeFileNameBin "aaaa" ⟨"photo.jpg", "image/jpeg", 3000, []⟩ ≠
      generateSafeFileNameBin "bbbb" ⟨"photo.jpg", "image/jpeg", 3000, []⟩ :=
  c8_distinct_tokens_distinct_names "aaaa" "bbbb"
    ⟨"photo.jpg", "image/jpeg", 3000, []⟩ (by decide)

/-- Claim C10 (confirmed): the `.bin`-fallback `generateSafeFileName`
(second revision of `backend/src/middlewares/file.ts` and
`src/unnamed/part_007`) produces a name ending in the lowercased `extname`
of the declared filename when that extension is longer than one character,
and a name ending in `.bin` when the `extname` result is empty or a single
character. -/
theorem c10_stored_extension (uuid : String) (f : MulterFile) :
    (1 < (extname f.originalname).length →
      strEndsWith (generateSafeFileNameBin uuid f)
        (jsToLower (extname f.originalname)) = true) ∧
    ((extname f.originalname).length ≤ 1 →
      strEndsWith (generateSafeFileNameBin uuid f) ".bin" = true) := by
  constructor
  · intro h
    have hne : jsToLower (extname f.originalname) ≠ "" := by
      intro he
      have hl := jsToLower_length (extname f.originalname)
      rw [he] at hl
      have : (0 : Nat) = (extname f.originalname).length := hl
      omega
    have hlen : 1 < (jsToLower (extname f.originalname)).length := by
      rw [jsToLower_length]; exact h
    simp only [generateSafeFileNameBin]
    rw [if_pos ⟨hne, hlen⟩]
    simp only [strEndsWith, strData_append]
    exact isSuffixOf_append_self _ _
  · intro h
    have hc : ¬ (jsToLower (extname f.originalname) ≠ "" ∧
        1 < (jsToLower (extname f.originalname)).length) := by
      rintro ⟨-, hl⟩
      rw [jsToLower_length] at hl
      omega
    simp only [generateSafeFileNameBin]
    rw [if_neg hc]
    simp only [strEndsWith, strData_append]
    exact isSuffixOf_append_self _ _

/-- Witness for C10: a multi-character extension is kept (lowercased), a
missing extension falls back to `.bin`. -/
theorem c10_witness :
    strEndsWith (generateSafeFileNameBin "u1" ⟨"photo.PNG", "image/png", 3000, []⟩)
      (jsToLower (extname "photo.PNG")) = true ∧
    strEndsWith (generateSafeFileNameBin "u1" ⟨"noext", "image/png", 3000, []⟩)
      ".bin" = true :=
  ⟨(c10_stored_extension "u1" ⟨"photo.PNG", "image/png", 3000, []⟩).1 (by decide),
   (c10_stored_extension "u1" ⟨"noext", "image/png", 3000, []⟩).2 (by decide)⟩

/-- Claim C2 (corrected), counterexample: under the first revision of
`backend/src/middlewares/file.ts` the pipeline accepts `photo.jpg` and
stores it as `a1b2c3d4_photo.jpg.jpg` — a name embedding `photo.jpg`, a
substring of the client's original filename, and not of the form
`<random-token>.<validated-extension>`. -/
theorem c2_counterexample :
    (pipeline_v1 "/app/up" "a1b2c3d4" (some "uploads") []
        ⟨"photo.jpg", "image/jpeg", 3000, [1, 2, 3]⟩).2
      = .created ⟨"/uploads/a1b2c3d4_photo.jpg.jpg", "photo.jpg"⟩ ∧
    storedName_v1 "a1b2c3d4" "photo.jpg" = "a1b2c3d4_photo.jpg.jpg" ∧
    listContainsSeg (storedName_v1 "a1b2c3d4" "photo.jpg").data "photo.jpg".data = true ∧
    listContainsSeg "photo.jpg".data "photo.jpg".data = true := by decide

/-- Claim C2 (corrected), amended: the UUID-based generator of the second
revision (and `part_007`) does produce `<random-token><extension>` where the
extension starts with a dot and is either the lowercased client extension or
the `.bin` fallback — so the only client-derived part of the stored name is
the lowercased extension; the md5-hash revision instead embeds the sanitized
client filename. -/
theorem c2_amended_name_shape (uuid : String) (f : MulterFile) :
    ∃ ext, generateSafeFileNameBin uuid f = uuid ++ ext ∧
      strStartsWith ext "." = true ∧
      (ext = ".bin" ∨ ext = jsToLower (extname f.originalname)) := by
  simp only [generateSafeFileNameBin]
  by_cases hc : jsToLower (extname f.originalname) ≠ "" ∧
      1 < (jsToLower (extname f.originalname)).length
  · refine ⟨jsToLower (extname f.originalname), by rw [if_pos hc], ?_, .inr rfl⟩
    rcases extname_empty_or_dot f.originalname with he | ⟨l, hl⟩
    · exact absurd ((jsToLower_eq_empty_iff _).mpr he) hc.1
    · exact jsToLower_dot_head hl
  · exact ⟨".bin", by rw [if_neg hc], by decide, .inl rfl⟩

/-- Claim C1 (corrected), counterexample: a text payload (matching no
magic-number signature) declared as `image/png` under the name `notes.png`
passes the declared-metadata `fileFilter` of the first revision of
`backend/src/middlewares/file.ts`, is stored on disk by multer, and the
controller answers 201 — the pipeline neither sniffs nor rejects it. -/
theorem c1_counterexample :
    fileTypeFromBuffer txtBytes = none ∧
    (pipeline_v1 "/app/up" "deadbeef" (some "uploads") []
        ⟨"notes.png", "image/png", 3000, txtBytes⟩).2
      = .created ⟨"/uploads/deadbeef_notes.png.png", "notes.png"⟩ ∧
    diskLookup (pipeline_v1 "/app/up" "deadbeef" (some "uploads") []
        ⟨"notes.png", "image/png", 3000, txtBytes⟩).1
      "/app/up/deadbeef_notes.png.png" = some txtBytes := by decide

/-- Claim C1 (corrected), amended: the content-sniffing `fileFilter` of
`src/unnamed/part_006` does reject every upload whose leading bytes match no
allowed signature, regardless of declared MIME type and filename; the
declared-metadata-only revision of `backend/src/middlewares/file.ts` performs
no sniffing and accepts such uploads. -/
theorem c1_amended_sniff_filter_rejects (uploadDir uuid : String) (f : MulterFile)
    (h : fileTypeFromBuffer f.buffer = none) :
    fileFilter_part006 uploadDir uuid f = false := by
  simp only [fileFilter_part006, h]
  split_ifs <;> rfl

/-- Witness for the amended C1 at a concrete unsniffable upload. -/
theorem c1_amended_witness :
    fileTypeFromBuffer [104, 101, 108, 108, 111] = none ∧
    fileFilter_part006 "/srv/pub/temp" "w1"
      ⟨"memo.png", "image/png", 4096, [104, 101, 108, 108, 111]⟩ = false :=
  ⟨by decide, c1_amended_sniff_filter_rejects "/srv/pub/temp" "w1"
      ⟨"memo.png", "image/png", 4096, [104, 101, 108, 108, 111]⟩ (by decide)⟩

/-- Claim C3 (corrected), counterexample: `isSafePath` accepts the candidate
`/app/public/uploads/../uploadsEvil/x`, whose canonical form
`/app/public/uploadsEvil/x` lies outside the root `/app/public/uploads` —
the `startsWith` comparison is a string-prefix test, not a path-containment
test, so a sibling directory whose name extends the root string is let
through. -/
theorem c3_counterexample :
    isSafePath "/app/public/uploads" "/app/public/uploads/../uploadsEvil/x" = true ∧
    pathNormalize "/app/public/uploads/../uploadsEvil/x" = "/app/public/uploadsEvil/x" ∧
    strictlyInsideRoot "/app/public/uploads" "/app/public/uploads/../uploadsEvil/x"
      = false := by decide

/-- Claim C3 (corrected), amended: the guard accepts every path that
canonically resolves strictly inside the (already canonical) root, but its
acceptance does not imply containment: it admits the string-prefix sibling
paths of the counterexample as well. -/
theorem c3_amended_inside_accepted (root target : String)
    (hroot : pathNormalize root = root)
    (h : strictlyInsideRoot root target = true) :
    isSafePath root target = true := by
  simp only [strictlyInsideRoot, strStartsWith] at h
  rw [hroot] at h
  simp only [isSafePath, strStartsWith]
  exact isPrefixOf_weaken root.data "/".data (pathNormalize target).data h

/-- Witness for the amended C3 at a concrete inside path. -/
theorem c3_amended_witness :
    isSafePath "/app/public/uploads" "/app/public/uploads/u1.png" = true :=
  c3_amended_inside_accepted "/app/public/uploads" "/app/public/uploads/u1.png"
    (by decide) (by decide)

/-- Claim C4 (corrected), counterexample: both sniffing filters accept
uploads whose sniffed type disagrees with the declared MIME type. The
`part_005` filter accepts PNG content declared `image/jpeg` under a `.png`
name (the declared MIME type is never consulted), and the `part_006` filter
accepts the claim's own example — PNG content under a `.jpg` name declared
`image/jpeg` (its deep check only requires the sniffed type to be
allow-listed). -/
theorem c4_counterexample :
    fileTypeFromBuffer pngBytes = some ⟨"image/png", "png"⟩ ∧
    fileFilter_part005 "/srv/pub/temp" "123" "abcd"
      ⟨"a.png", "image/jpeg", 3000, pngBytes⟩ = true ∧
    fileFilter_part006 "/srv/pub/temp" "u7"
      ⟨"photo.jpg", "image/jpeg", 4096, pngBytes⟩ = true := by decide

/-- Claim C4 (corrected), amended: the `part_005` content sniffer returns
Accept only if the sniffed type is allow-listed and the declared filename's
lowercased extension is among the sniffed type's permitted extensions (so
sniffed-versus-extension disagreement is rejected); the declared MIME type
itself is not compared against the sniffed type. -/
theorem c4_amended_accept_conditions (uploadDir ts rand : String) (f : MulterFile)
    (h : fileFilter_part005 uploadDir ts rand f = true) :
    ∃ t, fileTypeFromBuffer f.buffer = some t ∧
      allowedMimeTypes5.contains t.mime = true ∧
      (MIME_TO_EXT t.mime).contains (jsToLower (extname f.originalname)) = true := by
  simp only [fileFilter_part005] at h
  cases hs : fileTypeFromBuffer f.buffer with
  | none => rw [hs] at h; exact absurd h (by simp)
  | some t =>
    rw [hs] at h
    dsimp only at h
    split_ifs at h with h1 h2 h3
    exact ⟨t, rfl, h1, h2⟩

/-- Witness for the amended C4 at a concrete accepted upload. -/
theorem c4_amended_witness :
    ∃ t, fileTypeFromBuffer pngBytes = some t ∧
      allowedMimeTypes5.contains t.mime = true ∧
      (MIME_TO_EXT t.mime).contains (jsToLower (extname "ok.png")) = true :=
  c4_amended_accept_conditions "/d" "9" "aa" ⟨"ok.png", "image/jpeg", 5000, pngBytes⟩
    (by decide)

/-- Claim C6 (corrected), counterexample: a 1000-byte PNG declared
`image/png` passes the first-revision `fileFilter` (which has no minimum-size
check), multer stores it, and the controller then rejects it for being under
2 KiB — yet the stored file remains on disk: the rejection path performs no
cleanup, leaving an orphaned artifact. -/
theorem c6_counterexample :
    (pipeline_v1 "/app/up" "a1b2c3d4" (some "uploads") []
        ⟨"pic.png", "image/png", 1000, pngBytes⟩).2
      = .error "Размер файла должен быть больше 2KB" ∧
    diskLookup (pipeline_v1 "/app/up" "a1b2c3d4" (some "uploads") []
        ⟨"pic.png", "image/png", 1000, pngBytes⟩).1
      "/app/up/a1b2c3d4_pic.png.png" = some pngBytes := by decide

/-- Claim C6 (corrected), amended: rejections at the multer `fileFilter`
stage happen before any bytes are written and leave the disk unchanged;
rejections in the controller, after multer has stored the file, leave the
stored file on disk (no cleanup is performed on those paths). -/
theorem c6_amended_filter_rejections_clean (uploadDir hash : String)
    (uploadPath : Option String) (d : Disk) (f : MulterFile)
    (h : fileFilter_meta f = false) :
    pipeline_v1 uploadDir hash uploadPath d f = (d, .error "Файл не загружен") := by
  simp [pipeline_v1, multerStage_v1, h, controller_v1]

/-- Witness for the amended C6: a disallowed MIME type is rejected by the
filter with the disk left empty. -/
theorem c6_amended_witness :
    pipeline_v1 "/a" "h1" none [] ⟨"x.exe", "application/x-msdownload", 3000, []⟩
      = ([], .error "Файл не загружен") :=
  c6_amended_filter_rejections_clean "/a" "h1" none []
    ⟨"x.exe", "application/x-msdownload", 3000, []⟩ (by decide)

/-- Claim C7 (corrected), counterexample: with `/srv/uploads/c0ffee.png`
already on disk holding `[1, 2, 3]`, the `part_001` store writer accepts a
new upload that generates the same name and `fs.writeFileSync` replaces the
existing content with the new bytes — no existence check, no name
regeneration, no retry, and a 201 response. -/
theorem c7_counterexample :
    uploadFile_part001 "/srv/uploads" "c0ffee" [("/srv/uploads/c0ffee.png", [1, 2, 3])]
        (some ⟨"evil.png", "image/png", 4096, pngBytes⟩)
      = ([("/srv/uploads/c0ffee.png", pngBytes), ("/srv/uploads/c0ffee.png", [1, 2, 3])],
         .ok ⟨"c0ffee.png", "evil.png", "/uploads/c0ffee.png", 4096, "image/png"⟩) ∧
    diskLookup [("/srv/uploads/c0ffee.png", pngBytes),
        ("/srv/uploads/c0ffee.png", [1, 2, 3])] "/srv/uploads/c0ffee.png"
      = some pngBytes ∧
    pngBytes ≠ [1, 2, 3] := by decide

/-- Claim C7 (corrected), amended: the store writer has unconditional
overwrite semantics — after every successful upload the target path holds
the new payload, whatever the prior contents of the directory (in particular
when the generated name already existed). -/
theorem c7_amended_overwrite (uploadDir uuid : String) (d : Disk) (f : MulterFile)
    (d' : Disk) (r : UploadResponseM)
    (h : uploadFile_part001 uploadDir uuid d (some f) = (d', .ok r)) :
    diskLookup d' (pathJoin uploadDir (uuid ++ extname f.originalname))
      = some f.buffer := by
  simp only [uploadFile_part001] at h
  cases hs : fileTypeFromBuffer f.buffer with
  | none => rw [hs] at h; simp at h
  | some t =>
    rw [hs] at h
    dsimp only at h
    split_ifs at h with h1 h2
    · rw [Prod.ext_iff] at h
      obtain ⟨hd, -⟩ := h
      dsimp only at hd
      rw [← hd]
      simp [writeFileSync, diskLookup]
    · simp at h
    · simp at h

/-- Witness for the amended C7 at a concrete name collision. -/
theorem c7_amended_witness :
    diskLookup [("/data/up/fee1.gif", gifBytes), ("/data/up/fee1.gif", [9])]
        (pathJoin "/data/up" ("fee1" ++ extname "g.gif"))
      = some gifBytes :=
  c7_amended_overwrite "/data/up" "fee1" [("/data/up/fee1.gif", [9])]
    ⟨"g.gif", "image/gif", 2222, gifBytes⟩
    [("/data/up/fee1.gif", gifBytes), ("/data/up/fee1.gif", [9])]
    ⟨"fee1.gif", "g.gif", "/uploads/fee1.gif", 2222, "image/gif"⟩ (by decide)

/-- Claim C9 (confirmed): whenever the `part_001` controller stores an
upload, the bytes placed on disk are exactly the ingested buffer, and
re-running the content sniffer on the stored bytes returns exactly the
resolved type determined at ingestion time (sniffing is a pure function of
the bytes). -/
theorem c9_roundtrip (uploadDir uuid : String) (d d' : Disk) (f : MulterFile)
    (r : UploadResponseM)
    (h : uploadFile_part001 uploadDir uuid d (some f) = (d', .ok r)) :
    ∃ t stored,
      fileTypeFromBuffer f.buffer = some t ∧
      diskLookup d' (pathJoin uploadDir (uuid ++ extname f.originalname))
        = some stored ∧
      stored = f.buffer ∧
      fileTypeFromBuffer stored = some t := by
  simp only [uploadFile_part001] at h
  cases hs : fileTypeFromBuffer f.buffer with
  | none => rw [hs] at h; simp at h
  | some t =>
    rw [hs] at h
    dsimp only at h
    split_ifs at h with h1 h2
    · rw [Prod.ext_iff] at h
      obtain ⟨hd, -⟩ := h
      dsimp only at hd
      refine ⟨t, f.buffer, rfl, ?_, rfl, hs⟩
      rw [← hd]
      simp [writeFileSync, diskLookup]
    · simp at h
    · simp at h

/-- Witness for C9 at a concrete stored JPEG upload. -/
theorem c9_witness :
    ∃ t stored,
      fileTypeFromBuffer jpgBytes = some t ∧
      diskLookup [("/srv/up/u9.jpg", jpgBytes)]
          (pathJoin "/srv/up" ("u9" ++ extname "pic.jpg")) = some stored ∧
      stored = jpgBytes ∧
      fileTypeFromBuffer stored = some t :=
  c9_roundtrip "/srv/up" "u9" [] [("/srv/up/u9.jpg", jpgBytes)]
    ⟨"pic.jpg", "image/jpeg", 2500, jpgBytes⟩
    ⟨"u9.jpg", "pic.jpg", "/uploads/u9.jpg", 2500, "image/jpeg"⟩ (by decide)

end BadServer
